import Mathlib

/-
Verification of the AliceBot event-dispatch core (`alicebot/__init__.py`).

The embedding models:
- `Bot._handle_event`'s priority-tier dispatch loop over `plugins_priority_dict`
  (a Python dict from priority to a list of plugin descriptors, iterated over
  `sorted(keys)`), including the `SkipException` / `StopException` control
  signals, the `try/finally` around `handle()` that sets the tier stop flag
  when `block` is set, and the per-handler `except Exception` isolation;
- `Bot.get`'s wait loop with `max_try_times`, `timeout`, the `__handled__`
  (claimed) flag and the `should_exit` shutdown flag;
- `Bot._load_plugin_from_class` (registration with priority validation) and
  the plugin-removal branch of `Bot._hot_reload` (`plugins.pop(i)`).

Python dict insertion order is modelled by an association list with distinct
keys; `sorted(...)` is modelled by insertion sort on the key list.  Time is
modelled by tagging each candidate event delivered to `get` with the value of
`time.time()` at which the wait returns; the shutdown flag becoming set while
a wait is pending is modelled by a per-item `sduring` tag.
-/

namespace Alice

/-- Outcome of calling a plugin's `rule()` coroutine: a boolean, or one of the
exceptions the dispatch loop distinguishes (`SkipException`, `StopException`,
any other exception). -/
inductive RuleRes where
  | ok (b : Bool)
  | exnSkip
  | exnStop
  | exnOther
deriving DecidableEq

/-- Outcome of calling a plugin's `handle()` coroutine. -/
inductive HandleRes where
  | ok
  | exnSkip
  | exnStop
  | exnOther
deriving DecidableEq

/-- A plugin class as the dispatcher and the registry see it: its identity
(`pid`, standing for the source module/file), its declared `priority`
attribute (`none` models a value whose type is not `int`), its `block`
attribute, and the behaviour of `rule()` and `handle()` on the event being
dispatched. -/
structure PluginClass where
  pid : Nat
  priority : Option Int
  block : Bool
  rule : RuleRes
  handle : HandleRes
deriving DecidableEq

/-- `plugins_priority_dict`: a Python dict from priority to the list of
plugins registered at that priority, in insertion order. -/
abbrev Table := List (Int × List PluginClass)

/-- The keys of the priority dict, in insertion order. -/
def keys (t : Table) : List Int := t.map Prod.fst

/-- Dict lookup `plugins_priority_dict[p]` (empty if the key is absent). -/
def bucket : Table → Int → List PluginClass
  | [], _ => []
  | (q, hs) :: rest, p => if q = p then hs else bucket rest p

/-- `sorted(self.plugins_priority_dict.keys())`. -/
def sortKeys (t : Table) : List Int := List.insertionSort (· ≤ ·) (keys t)

/-- Effect of one handler of a tier on the tier's `stop` flag, following the
body of the inner `for` loop of `Bot._handle_event`:
`rule()` returning `True` runs `handle()` inside `try/finally` where the
`finally` sets `stop = True` if `block` is set; `StopException` (from `rule`
or `handle`) sets `stop = True`; `SkipException` and any other exception
leave `stop` unchanged. -/
def stepStop (stop : Bool) (c : PluginClass) : Bool :=
  match c.rule with
  | .ok true =>
    match c.handle with
    | .exnStop => true
    | _ => stop || c.block
  | .exnStop => true
  | _ => stop

/-- The tier's `stop` flag after the inner `for` loop ran over the whole
tier (the loop never breaks out of a tier early: all exceptions are caught
per handler). -/
def tierStop (hs : List PluginClass) : Bool := hs.foldl stepStop false

/-- Trace entries contributed by one tier at priority `p` with `n` handlers:
every handler of a visited tier is instantiated and rule-checked, in
registration order. -/
def tierEntries (p : Int) (n : Nat) : List (Int × Nat) :=
  (List.range n).map (fun i => (p, i))

/-- The priority loop of `Bot._handle_event` over an (already sorted) list of
priority keys: each visited tier contributes all its handlers to the trace;
after a tier whose `stop` flag is set, `break` leaves the loop. -/
def goTiers (t : Table) : List Int → List (Int × Nat)
  | [] => []
  | p :: ks =>
    let hs := bucket t p
    if tierStop hs then tierEntries p hs.length
    else tierEntries p hs.length ++ goTiers t ks

/-- The dispatch trace of `Bot._handle_event` for one event: the sequence of
(priority, index-within-tier) pairs of the handlers that get instantiated and
rule-checked, in order. -/
def dispatchTrace (t : Table) : List (Int × Nat) := goTiers t (sortKeys t)

/-- `Bot._load_plugin_from_class`, insertion part: append to the existing
bucket, or create a new key (at the end, per dict insertion order). -/
def addToBucket : Table → Int → PluginClass → Table
  | [], p, c => [(p, [c])]
  | (q, hs) :: rest, p, c =>
    if q = p then (q, hs ++ [c]) :: rest else (q, hs) :: addToBucket rest p c

/-- `Bot._load_plugin_from_class`: if `type(priority) is int and
priority >= 0`, insert; otherwise raise `LoadModuleError` (the table is left
untouched). -/
def loadPluginFromClass (t : Table) (c : PluginClass) : Except Unit Table :=
  match c.priority with
  | some p => if 0 ≤ p then .ok (addToBucket t p c) else .error ()
  | none => .error ()

/-- Remove the first plugin with the given source id from one bucket
(`plugins.pop(i)` after `enumerate` finds the first match, then `break`). -/
def removeFirstPid (f : Nat) : List PluginClass → List PluginClass
  | [] => []
  | c :: cs => if c.pid = f then cs else c :: removeFirstPid f cs

/-- The `Change.deleted` branch of `Bot._hot_reload`: for every bucket, pop
the first plugin whose module file matches; the bucket itself is never
deleted from the dict. -/
def hotReloadDelete (t : Table) (f : Nat) : Table :=
  t.map (fun kv => (kv.1, removeFirstPid f kv.2))

/-- A registry operation: loading a plugin class, or the hot-reload removal
of a plugin source file. -/
inductive RegistryOp where
  | register (c : PluginClass)
  | unregister (f : Nat)

/-- Apply one registry operation (a failed registration leaves the table
unchanged, as the exception is raised before any mutation). -/
def applyOp (t : Table) : RegistryOp → Table
  | .register c =>
    match loadPluginFromClass t c with
    | .ok t2 => t2
    | .error _ => t
  | .unregister f => hotReloadDelete t f

/-- Apply a sequence of registry operations. -/
def applyOps (t : Table) (ops : List RegistryOp) : Table := ops.foldl applyOp t

/-- A plugin raises the stop signal during dispatch: `rule()` raises
`StopException`, or `rule()` returns `True` and `handle()` raises
`StopException`. -/
def raisesStop (c : PluginClass) : Bool :=
  match c.rule with
  | .ok true => decide (c.handle = .exnStop)
  | .exnStop => true
  | _ => false

/-- One candidate event as a pending `Bot.get` call observes it: its payload
(what the predicate is applied to), its `__handled__` (claimed) flag at the
moment `get` examines it, the value of `time.time()` when the wait on the
condition returns, and whether `should_exit` became set while this wait was
pending (`sduring`). -/
structure SchedItem where
  payload : Nat
  handled : Bool
  time : Nat
  sduring : Bool
deriving DecidableEq

/-- How a `Bot.get` call ends: returning a matching event, raising
`GetEventTimeout`, returning without an event because `should_exit` was
observed set, or blocking forever (no timeout and no further event ever
arrives). -/
inductive GetResult where
  | found (payload : Nat)
  | timeoutExit
  | shutdownExit
  | blocked
deriving DecidableEq

/-- Observable outcome of a `Bot.get` call: its result, how many candidate
events it consumed from the condition, and how many times it evaluated its
predicate. -/
structure GetOut where
  result : GetResult
  consumed : Nat
  evals : Nat
deriving DecidableEq

/-- `max_try_times is not None and try_times > max_try_times`. -/
def tryExceeded (maxTry : Option Nat) (tryTimes : Nat) : Bool :=
  match maxTry with
  | some m => decide (m < tryTimes)
  | none => false

/-- `timeout is not None and time.time() - start_time > timeout`
(with `start_time = 0`). -/
def timeExceeded (timeLimit : Option Nat) (now : Nat) : Bool :=
  match timeLimit with
  | some tl => decide (tl < now)
  | none => false

/-- The `while not self.should_exit.is_set()` loop of `Bot.get`:
`sched` lists the successive candidate events the condition wait yields,
`tryTimes` and `now` are the loop state, `sd` is the shutdown flag as
currently observable.  Loop-top order is exactly the source's: shutdown
check, then try-count bound (strict `>` on a counter incremented after each
consumed candidate), then deadline, then the wait.  A candidate arriving
after the absolute deadline models `asyncio.wait_for` raising
`TimeoutError` (`break`).  A claimed (`__handled__`) candidate is skipped
without evaluating the predicate; an unclaimed candidate whose predicate
holds is claimed and returned; in every other case `try_times += 1` and the
loop continues.  After the loop, `GetEventTimeout` is raised only when the
shutdown flag is not set. -/
def getGo (pred : Nat → Bool) (maxTry timeLimit : Option Nat) :
    List SchedItem → Nat → Nat → Bool → GetOut
  | [], tryTimes, now, sd =>
    ⟨if sd then .shutdownExit
     else if tryExceeded maxTry tryTimes then .timeoutExit
     else if timeExceeded timeLimit now then .timeoutExit
     else
       match timeLimit with
       | some _ => .timeoutExit
       | none => .blocked, 0, 0⟩
  | it :: rest, tryTimes, now, sd =>
    if sd then ⟨.shutdownExit, 0, 0⟩
    else if tryExceeded maxTry tryTimes then ⟨.timeoutExit, 0, 0⟩
    else if timeExceeded timeLimit now then ⟨.timeoutExit, 0, 0⟩
    else if timeExceeded timeLimit it.time then ⟨.timeoutExit, 0, 0⟩
    else if !it.handled && pred it.payload then ⟨.found it.payload, 1, 1⟩
    else
      let r := getGo pred maxTry timeLimit rest (tryTimes + 1) it.time (sd || it.sduring)
      ⟨r.result, r.consumed + 1, r.evals + (if it.handled then 0 else 1)⟩

/-- `Bot.get` from its entry point: `try_times = 0`, `start_time = 0` (so
`now` is elapsed time), shutdown flag initially unset. -/
def getRun (pred : Nat → Bool) (maxTry timeLimit : Option Nat)
    (sched : List SchedItem) : GetOut :=
  getGo pred maxTry timeLimit sched 0 0 false

/-- Membership in the entries of one tier. -/
theorem mem_tierEntries {p : Int} {n : Nat} {q : Int} {j : Nat} :
    (q, j) ∈ tierEntries p n ↔ q = p ∧ j < n := by
  simp only [tierEntries, List.mem_map, List.mem_range, Prod.mk.injEq]
  constructor
  · rintro ⟨i, hi, rfl, rfl⟩
    exact ⟨rfl, hi⟩
  · rintro ⟨rfl, hj⟩
    exact ⟨j, hj, rfl, rfl⟩

/-- Once the tier stop flag is set it can never be cleared by a later
handler of the tier. -/
theorem stepStop_true (c : PluginClass) : stepStop true c = true := by
  cases hr : c.rule with
  | ok b => cases b <;> cases hh : c.handle <;> simp [stepStop, hr, hh]
  | exnSkip => simp [stepStop, hr]
  | exnStop => simp [stepStop, hr]
  | exnOther => simp [stepStop, hr]

/-- A handler that raises the stop signal, or whose `block` flag is set and
whose rule returned `True`, forces the stop flag regardless of its previous
value. -/
theorem stepStop_forces (s : Bool) (c : PluginClass)
    (hc : raisesStop c = true ∨ (c.block = true ∧ c.rule = .ok true)) :
    stepStop s c = true := by
  rcases hc with hc | ⟨hb, hr⟩
  · cases hr : c.rule with
    | ok b =>
      cases b
      · simp [raisesStop, hr] at hc
      · rw [raisesStop, hr] at hc
        have hh : c.handle = .exnStop := by simpa using hc
        simp [stepStop, hr, hh]
    | exnSkip => simp [raisesStop, hr] at hc
    | exnStop => simp [stepStop, hr]
    | exnOther => simp [raisesStop, hr] at hc
  · cases hh : c.handle <;> simp [stepStop, hr, hh, hb]

/-- Folding the tier-stop step from an already-set flag keeps it set. -/
theorem foldl_stepStop_true (hs : List PluginClass) :
    hs.foldl stepStop true = true := by
  induction hs with
  | nil => rfl
  | cons a as ih => rw [List.foldl_cons, stepStop_true]; exact ih

/-- A tier containing a stop-forcing handler ends with its stop flag set. -/
theorem tierStop_of_mem {hs : List PluginClass} {c : PluginClass}
    (hm : c ∈ hs)
    (hc : raisesStop c = true ∨ (c.block = true ∧ c.rule = .ok true)) :
    tierStop hs = true := by
  rw [tierStop]
  generalize false = s
  induction hs generalizing s with
  | nil => cases hm
  | cons a as ih =>
    rw [List.foldl_cons]
    rcases List.mem_cons.mp hm with h | h
    · subst h
      rw [stepStop_forces s c hc]
      exact foldl_stepStop_true as
    · exact ih h _

/-- Any entry of the tier loop's trace names a listed priority and an index
inside that priority's bucket. -/
theorem mem_goTiers_len {t : Table} {ks : List Int} {q : Int} {j : Nat}
    (h : (q, j) ∈ goTiers t ks) : q ∈ ks ∧ j < (bucket t q).length := by
  induction ks with
  | nil => cases h
  | cons p ks ih =>
    simp only [goTiers] at h
    split at h
    · obtain ⟨rfl, hj⟩ := mem_tierEntries.mp h
      exact ⟨List.mem_cons_self _ _, hj⟩
    · rcases List.mem_append.mp h with h | h
      · obtain ⟨rfl, hj⟩ := mem_tierEntries.mp h
        exact ⟨List.mem_cons_self _ _, hj⟩
      · obtain ⟨h1, h2⟩ := ih h
        exact ⟨List.mem_cons_of_mem _ h1, h2⟩

/-- Characterisation of the tier loop's trace over a strictly ascending key
list: a handler slot is visited exactly when its priority is listed, its
index is inside the bucket, and no strictly smaller listed priority ended
its tier with the stop flag set. -/
theorem mem_goTiers_iff {t : Table} {ks : List Int} {q : Int} {j : Nat}
    (hks : ks.Pairwise (· < ·)) :
    (q, j) ∈ goTiers t ks ↔
      q ∈ ks ∧ j < (bucket t q).length ∧
        ∀ p ∈ ks, p < q → tierStop (bucket t p) = false := by
  induction ks with
  | nil => simp [goTiers]
  | cons p ks ih =>
    have hpks : ∀ r ∈ ks, p < r := (List.pairwise_cons.mp hks).1
    have hks' : ks.Pairwise (· < ·) := (List.pairwise_cons.mp hks).2
    simp only [goTiers]
    split
    case isTrue hst =>
      rw [mem_tierEntries]
      constructor
      · rintro ⟨rfl, hj⟩
        refine ⟨List.mem_cons_self _ _, hj, ?_⟩
        intro r hr hrq
        rcases List.mem_cons.mp hr with rfl | hr'
        · exact absurd hrq (lt_irrefl _)
        · exact absurd hrq (not_lt.mpr (le_of_lt (hpks r hr')))
      · rintro ⟨hq, hj, hall⟩
        rcases List.mem_cons.mp hq with rfl | hq'
        · exact ⟨rfl, hj⟩
        · have := hall p (List.mem_cons_self _ _) (hpks q hq')
          rw [hst] at this
          cases this
    case isFalse hst =>
      have hstf : tierStop (bucket t p) = false := by
        revert hst
        cases tierStop (bucket t p) <;> simp
      rw [List.mem_append, mem_tierEntries, ih hks']
      constructor
      · rintro (⟨rfl, hj⟩ | ⟨hq, hj, hall⟩)
        · refine ⟨List.mem_cons_self _ _, hj, ?_⟩
          intro r hr hrq
          rcases List.mem_cons.mp hr with rfl | hr'
          · exact absurd hrq (lt_irrefl _)
          · exact absurd hrq (not_lt.mpr (le_of_lt (hpks r hr')))
        · refine ⟨List.mem_cons_of_mem _ hq, hj, ?_⟩
          intro r hr hrq
          rcases List.mem_cons.mp hr with rfl | hr'
          · exact hstf
          · exact hall r hr' hrq
      · rintro ⟨hq, hj, hall⟩
        rcases List.mem_cons.mp hq with rfl | hq'
        · exact Or.inl ⟨rfl, hj⟩
        · exact Or.inr ⟨hq', hj, fun r hr hrq => hall r (List.mem_cons_of_mem _ hr) hrq⟩

/-- Entries of one tier share one priority, so they are pairwise ordered. -/
theorem tierEntries_pairwise (p : Int) (n : Nat) :
    (tierEntries p n).Pairwise (fun a b => a.1 ≤ b.1) := by
  rw [tierEntries, List.pairwise_map]
  exact List.Pairwise.imp (fun _ => le_refl p) (List.pairwise_lt_range n)

/-- Over a strictly ascending key list the trace is weakly ascending in
priority. -/
theorem goTiers_pairwise {t : Table} {ks : List Int}
    (hks : ks.Pairwise (· < ·)) :
    (goTiers t ks).Pairwise (fun a b => a.1 ≤ b.1) := by
  induction ks with
  | nil => simp [goTiers]
  | cons p ks ih =>
    have hpks : ∀ r ∈ ks, p < r := (List.pairwise_cons.mp hks).1
    have hks' : ks.Pairwise (· < ·) := (List.pairwise_cons.mp hks).2
    simp only [goTiers]
    split
    · exact tierEntries_pairwise p _
    · rw [List.pairwise_append]
      refine ⟨tierEntries_pairwise p _, ih hks', ?_⟩
      intro a ha b hb
      obtain ⟨a1, a2⟩ := a
      obtain ⟨b1, b2⟩ := b
      obtain ⟨rfl, _⟩ := mem_tierEntries.mp ha
      have hb1 : b1 ∈ ks := (mem_goTiers_len hb).1
      exact le_of_lt (hpks b1 hb1)

/-- The sorted key list is a permutation of the dict's keys. -/
theorem sortKeys_perm (t : Table) : List.Perm (sortKeys t) (keys t) :=
  List.perm_insertionSort _ _

/-- Membership transfers between the sorted key list and the dict keys. -/
theorem mem_sortKeys {t : Table} {p : Int} : p ∈ sortKeys t ↔ p ∈ keys t :=
  (sortKeys_perm t).mem_iff

/-- The sorted key list is sorted. -/
theorem sortKeys_sorted (t : Table) : (sortKeys t).Sorted (· ≤ ·) :=
  List.sorted_insertionSort _ _

/-- With distinct dict keys (a Python dict cannot repeat keys) the sorted
key list is strictly ascending. -/
theorem sortKeys_pairwise_lt {t : Table} (h : (keys t).Nodup) :
    (sortKeys t).Pairwise (· < ·) :=
  List.Sorted.lt_of_le (sortKeys_sorted t) (((sortKeys_perm t).nodup_iff).mpr h)

/-- Characterisation of the dispatch trace of `Bot._handle_event`. -/
theorem mem_dispatchTrace_iff {t : Table} {q : Int} {j : Nat}
    (h : (keys t).Nodup) :
    (q, j) ∈ dispatchTrace t ↔
      q ∈ keys t ∧ j < (bucket t q).length ∧
        ∀ p ∈ keys t, p < q → tierStop (bucket t p) = false := by
  rw [dispatchTrace, mem_goTiers_iff (sortKeys_pairwise_lt h)]
  constructor
  · rintro ⟨h1, h2, h3⟩
    exact ⟨mem_sortKeys.mp h1, h2, fun p hp => h3 p (mem_sortKeys.mpr hp)⟩
  · rintro ⟨h1, h2, h3⟩
    exact ⟨mem_sortKeys.mpr h1, h2, fun p hp => h3 p (mem_sortKeys.mp hp)⟩

/-- The dispatch trace visits priorities in weakly ascending order. -/
theorem dispatchTrace_pairwise {t : Table} (h : (keys t).Nodup) :
    (dispatchTrace t).Pairwise (fun a b => a.1 ≤ b.1) :=
  goTiers_pairwise (sortKeys_pairwise_lt h)

/-- A non-empty bucket's priority is a dict key. -/
theorem mem_bucket_mem_keys {t : Table} {p : Int} {c : PluginClass}
    (h : c ∈ bucket t p) : p ∈ keys t := by
  induction t with
  | nil => cases h
  | cons kv rest ih =>
    obtain ⟨q, hs⟩ := kv
    rw [bucket] at h
    split at h
    next hqp =>
      subst hqp
      exact List.mem_cons_self _ _
    next hqp =>
      exact List.mem_cons_of_mem _ (ih h)

/-- First handler of the C1 scenario: raises the stop signal from `rule`. -/
def c1StopPlugin : PluginClass := ⟨0, some 0, false, .exnStop, .ok⟩

/-- Second handler of the C1 scenario, in the same tier. -/
def c1AfterPlugin : PluginClass := ⟨1, some 0, false, .ok false, .ok⟩

/-- A handler in a higher tier for the C1 scenario. -/
def c1HighPlugin : PluginClass := ⟨2, some 7, false, .ok true, .ok⟩

/-- Priority table for the C1 scenario. -/
def c1Table : Table := [(0, [c1StopPlugin, c1AfterPlugin]), (7, [c1HighPlugin])]

/-- C1 (counterexample): the first handler of tier 0 raises the stop signal,
yet the next handler of the same tier is still instantiated and
rule-checked — the dispatch trace is `[(0,0), (0,1)]`, containing the
same-tier successor `(0,1)`; the claim says nothing after the stop-raiser in
its tier may be rule-checked.  Only the strictly higher tier is
suppressed. -/
theorem c1_counterexample :
    raisesStop c1StopPlugin = true ∧
      dispatchTrace c1Table = [(0, 0), (0, 1)] ∧
      (0, 1) ∈ dispatchTrace c1Table :=
  ⟨by decide, by decide, by decide⟩

/-- C1 (amended): when a handler in the tier at priority `p` raises the stop
signal, no handler in any tier of strictly greater priority is instantiated
or rule-checked for that event, but the remaining handlers of tier `p`
itself are still instantiated and rule-checked (whenever that tier runs at
all, it runs in full). -/
theorem c1_amended (t : Table) (p q : Int) (j : Nat) (c : PluginClass)
    (hn : (keys t).Nodup) (hc : c ∈ bucket t p)
    (hstop : raisesStop c = true) :
    (p < q → (q, j) ∉ dispatchTrace t) ∧
      ((p, 0) ∈ dispatchTrace t →
        ∀ i < (bucket t p).length, (p, i) ∈ dispatchTrace t) := by
  have hpk : p ∈ keys t := mem_bucket_mem_keys hc
  have hts : tierStop (bucket t p) = true := tierStop_of_mem hc (Or.inl hstop)
  constructor
  · intro hpq hmem
    have h3 := ((mem_dispatchTrace_iff hn).mp hmem).2.2 p hpk hpq
    rw [hts] at h3
    cases h3
  · intro h0 i hi
    exact (mem_dispatchTrace_iff hn).mpr
      ⟨hpk, hi, ((mem_dispatchTrace_iff hn).mp h0).2.2⟩

/-- C1 witness: the amended statement at the concrete table. -/
theorem c1_witness :
    ((7 : Int), 0) ∉ dispatchTrace c1Table ∧
      ((0 : Int), 1) ∈ dispatchTrace c1Table :=
  ⟨(c1_amended c1Table 0 7 0 c1StopPlugin (by decide) (by decide)
      (by decide)).1 (by decide),
   (c1_amended c1Table 0 7 0 c1StopPlugin (by decide) (by decide)
      (by decide)).2 (by decide) 1 (by decide)⟩

/-- Blocking handler of the C2 scenario: rule matches, body raises an
ordinary exception. -/
def c2BlockRaisePlugin : PluginClass := ⟨20, some 1, true, .ok true, .exnOther⟩

/-- Higher-tier handler of the C2 scenario. -/
def c2NextPlugin : PluginClass := ⟨21, some 5, false, .ok true, .ok⟩

/-- Priority table for the C2 scenario. -/
def c2Table : Table := [(1, [c2BlockRaisePlugin]), (5, [c2NextPlugin])]

/-- C2 (counterexample): a handler with `block` set whose rule returned true
and whose `handle()` body raised an ordinary exception still terminates the
dispatch — the tier at priority 5 is never visited, contrary to the claim
that a raising body prevents the `block` flag from terminating the dispatch
(the flag is applied in a `finally` block, so it fires on failure too). -/
theorem c2_counterexample :
    c2BlockRaisePlugin.block = true ∧
      c2BlockRaisePlugin.handle = .exnOther ∧
      dispatchTrace c2Table = [(1, 0)] :=
  ⟨rfl, rfl, by decide⟩

/-- C2 (amended): a handler whose `block` flag is set marks the dispatch as
terminal whenever its rule predicate returned true, regardless of whether
its `handle` body completed, raised the skip signal, or raised any other
exception. -/
theorem c2_amended (c : PluginClass) (hb : c.block = true)
    (hr : c.rule = .ok true) :
    (∀ s, stepStop s c = true) ∧ ∀ hs, c ∈ hs → tierStop hs = true :=
  ⟨fun s => stepStop_forces s c (Or.inr ⟨hb, hr⟩),
   fun _ hm => tierStop_of_mem hm (Or.inr ⟨hb, hr⟩)⟩

/-- C2 witness: the amended statement at the concrete raising handler. -/
theorem c2_witness :
    stepStop false c2BlockRaisePlugin = true ∧
      tierStop [c2BlockRaisePlugin] = true :=
  ⟨(c2_amended c2BlockRaisePlugin rfl rfl).1 false,
   (c2_amended c2BlockRaisePlugin rfl rfl).2 [c2BlockRaisePlugin] (by decide)⟩

/-- Blocking, matching handler of the C5 scenario. -/
def c5BlockPlugin : PluginClass := ⟨10, some 0, true, .ok true, .ok⟩

/-- Higher-tier handler of the C5 scenario. -/
def c5HighPlugin : PluginClass := ⟨11, some 2, false, .ok true, .ok⟩

/-- Priority table for the C5 scenario. -/
def c5Table : Table := [(0, [c5BlockPlugin]), (2, [c5HighPlugin])]

/-- C5: during dispatch of one event, if some handler whose `block` flag is
true has its rule predicate return true, then no handler registered at a
strictly greater priority is instantiated or rule-checked for that event. -/
theorem c5_block_blocks_higher (t : Table) (p q : Int) (j : Nat)
    (c : PluginClass) (hn : (keys t).Nodup) (hc : c ∈ bucket t p)
    (hb : c.block = true) (hr : c.rule = .ok true) (hpq : p < q) :
    (q, j) ∉ dispatchTrace t := by
  intro hmem
  have h3 := ((mem_dispatchTrace_iff hn).mp hmem).2.2 p
    (mem_bucket_mem_keys hc) hpq
  rw [tierStop_of_mem hc (Or.inr ⟨hb, hr⟩)] at h3
  cases h3

/-- C5 witness: the statement at the concrete table. -/
theorem c5_witness : ((2 : Int), 0) ∉ dispatchTrace c5Table :=
  c5_block_blocks_higher c5Table 0 2 0 c5BlockPlugin (by decide) (by decide)
    rfl rfl (by decide)

/-- Low-tier handlers of the C6 scenario. -/
def c6LowPluginA : PluginClass := ⟨30, some 1, false, .ok false, .ok⟩

/-- Second low-tier handler of the C6 scenario. -/
def c6LowPluginB : PluginClass := ⟨31, some 1, false, .ok true, .ok⟩

/-- High-tier handler of the C6 scenario. -/
def c6HighPlugin : PluginClass := ⟨32, some 3, false, .ok false, .ok⟩

/-- Priority table for the C6 scenario; note key 3 is inserted into the dict
before key 1, so tier order must come from sorting, not insertion order. -/
def c6Table : Table := [(3, [c6HighPlugin]), (1, [c6LowPluginA, c6LowPluginB])]

/-- C6: for priorities `p1 < p2` both present in the table, every handler at
`p1` is rule-checked before any handler at `p2`, regardless of key insertion
order: whenever some handler of tier `p2` appears in the dispatch trace,
every handler slot of tier `p1` appears too, and the trace is weakly
ascending in priority, so every `p1` entry precedes every `p2` entry. -/
theorem c6_priority_order (t : Table) (p1 p2 : Int) (i j : Nat)
    (hn : (keys t).Nodup) (h12 : p1 < p2) (hp1 : p1 ∈ keys t)
    (hi : i < (bucket t p1).length) (hj : (p2, j) ∈ dispatchTrace t) :
    (p1, i) ∈ dispatchTrace t ∧
      (dispatchTrace t).Pairwise (fun a b => a.1 ≤ b.1) := by
  have h := (mem_dispatchTrace_iff hn).mp hj
  refine ⟨(mem_dispatchTrace_iff hn).mpr ⟨hp1, hi, ?_⟩,
    dispatchTrace_pairwise hn⟩
  intro p hp hpp1
  exact h.2.2 p hp (lt_trans hpp1 h12)

/-- C6 witness: the statement at the concrete table with reversed insertion
order. -/
theorem c6_witness :
    ((1 : Int), 1) ∈ dispatchTrace c6Table ∧
      (dispatchTrace c6Table).Pairwise (fun a b => a.1 ≤ b.1) :=
  c6_priority_order c6Table 1 3 1 0 (by decide) (by decide) (by decide)
    (by decide) (by decide)

/-- Faulting blocking handler of the C8 scenario. -/
def c8FaultPlugin : PluginClass := ⟨40, some 2, true, .ok true, .exnOther⟩

/-- Same-tier successor of the faulting handler. -/
def c8SiblingPlugin : PluginClass := ⟨41, some 2, false, .ok false, .ok⟩

/-- Higher-tier handler of the C8 scenario. -/
def c8HighPlugin : PluginClass := ⟨42, some 4, false, .ok true, .ok⟩

/-- Priority table for the C8 scenario. -/
def c8Table : Table := [(2, [c8FaultPlugin, c8SiblingPlugin]), (4, [c8HighPlugin])]

/-- The faulting handler replaced by a non-matching one. -/
def c8FaultNoMatch : PluginClass := ⟨40, some 2, true, .ok false, .ok⟩

/-- The C8 table with the faulting handler not matching. -/
def c8TableNoMatch : Table :=
  [(2, [c8FaultNoMatch, c8SiblingPlugin]), (4, [c8HighPlugin])]

/-- A faulting handler with `block` unset, for the amended statement. -/
def c8PlainFault : PluginClass := ⟨43, some 2, false, .ok true, .exnOther⟩

/-- C8 (counterexample): a blocking handler whose rule matched and whose
body raised an ordinary exception is not treated "as if it had not matched":
the same-tier successor still runs, but the higher tier is suppressed,
whereas with the handler actually not matching the higher tier runs. -/
theorem c8_counterexample :
    c8FaultPlugin.handle = .exnOther ∧
      dispatchTrace c8Table = [(2, 0), (2, 1)] ∧
      dispatchTrace c8TableNoMatch = [(2, 0), (2, 1), (4, 0)] :=
  ⟨rfl, by decide, by decide⟩

/-- C8 (amended): an exception other than skip/stop raised by a handler is
confined to that handler and dispatch continues with the next handler of the
tier; when the exception came from `rule`, or the handler's `block` flag is
unset, the stop flag is exactly as if the handler had not matched; but when
the raising handler's `block` flag is set and its rule had returned true,
the dispatch is still marked terminal. -/
theorem c8_amended (c : PluginClass) (s : Bool) :
    (c.rule = .exnOther → stepStop s c = s) ∧
      (c.rule = .ok true → c.handle = .exnOther →
        stepStop s c = (s || c.block)) ∧
      (∀ hs1 hs2, c.rule = .ok true → c.handle = .exnOther →
        c.block = false →
        tierStop (hs1 ++ c :: hs2) =
          tierStop (hs1 ++ { c with rule := .ok false } :: hs2)) := by
  refine ⟨fun h => by simp [stepStop, h], fun hr hh => by simp [stepStop, hr, hh], ?_⟩
  intro hs1 hs2 hr hh hb
  rw [tierStop, tierStop, List.foldl_append, List.foldl_append,
    List.foldl_cons, List.foldl_cons]
  congr 1
  simp [stepStop, hr, hh, hb]

/-- C8 witness: the amended statement at the concrete faulting handler. -/
theorem c8_witness :
    stepStop false c8PlainFault = (false || c8PlainFault.block) ∧
      tierStop ([] ++ c8PlainFault :: []) =
        tierStop ([] ++ { c8PlainFault with rule := .ok false } :: []) :=
  ⟨(c8_amended c8PlainFault false).2.1 rfl rfl,
   (c8_amended c8PlainFault false).2.2 [] [] rfl rfl rfl⟩

/-- With `try_times = 0` the try-count bound can never already be
exceeded (`0 > max_try_times` is false for every value). -/
theorem tryExceeded_zero (mt : Option Nat) : tryExceeded mt 0 = false := by
  cases mt with
  | none => rfl
  | some m => simp [tryExceeded]

/-- An empty schedule consumes no candidate and evaluates the predicate
never. -/
theorem getGo_nil_counts (pred : Nat → Bool) (mt tl : Option Nat)
    (tryT now : Nat) (sd : Bool) :
    (getGo pred mt tl [] tryT now sd).consumed = 0 ∧
      (getGo pred mt tl [] tryT now sd).evals = 0 :=
  ⟨rfl, rfl⟩

/-- Once the shutdown flag is observed at the top of the wait loop, `get`
returns without error immediately: no further candidate is consumed, no
predicate is evaluated, and no `GetEventTimeout` is raised, regardless of
the try-count bound or deadline. -/
theorem getGo_shutdown (pred : Nat → Bool) (mt tl : Option Nat)
    (sched : List SchedItem) (tryT now : Nat) :
    getGo pred mt tl sched tryT now true = ⟨.shutdownExit, 0, 0⟩ := by
  cases sched <;> simp [getGo]

/-- One non-returning wait-loop iteration: the candidate at the head is
consumed, the predicate is evaluated exactly when the candidate is
unclaimed, and `try_times` is incremented in either case. -/
theorem getGo_cons (pred : Nat → Bool) (mt tl : Option Nat) (a : SchedItem)
    (rest : List SchedItem) (tryT now : Nat)
    (h1 : tryExceeded mt tryT = false) (h2 : timeExceeded tl now = false)
    (h3 : timeExceeded tl a.time = false)
    (h4 : (!a.handled && pred a.payload) = false) :
    getGo pred mt tl (a :: rest) tryT now false =
      ⟨(getGo pred mt tl rest (tryT + 1) a.time a.sduring).result,
       (getGo pred mt tl rest (tryT + 1) a.time a.sduring).consumed + 1,
       (getGo pred mt tl rest (tryT + 1) a.time a.sduring).evals +
         (if a.handled then 0 else 1)⟩ := by
  simp [getGo, h1, h2, h3, h4]

/-- The returning wait-loop iteration: an unclaimed matching candidate is
claimed and returned at once. -/
theorem getGo_cons_found (pred : Nat → Bool) (mt tl : Option Nat)
    (a : SchedItem) (rest : List SchedItem) (tryT now : Nat)
    (h1 : tryExceeded mt tryT = false) (h2 : timeExceeded tl now = false)
    (h3 : timeExceeded tl a.time = false)
    (h4 : (!a.handled && pred a.payload) = true) :
    getGo pred mt tl (a :: rest) tryT now false = ⟨.found a.payload, 1, 1⟩ := by
  simp [getGo, h1, h2, h3, h4]

/-- A wait-loop iteration ending the loop before consuming the head
candidate (try-count bound, loop-top deadline, or the bounded wait timing
out) raises `GetEventTimeout` when the shutdown flag is unset. -/
theorem getGo_cons_early (pred : Nat → Bool) (mt tl : Option Nat)
    (a : SchedItem) (rest : List SchedItem) (tryT now : Nat)
    (h : tryExceeded mt tryT = true ∨ timeExceeded tl now = true ∨
      timeExceeded tl a.time = true) :
    getGo pred mt tl (a :: rest) tryT now false = ⟨.timeoutExit, 0, 0⟩ := by
  by_cases h1 : tryExceeded mt tryT = true
  · simp [getGo, h1]
  · by_cases h2 : timeExceeded tl now = true
    · simp [getGo, h1, h2]
    · have h3 : timeExceeded tl a.time = true := by tauto
      simp [getGo, h1, h2, h3]

/-- `GetEventTimeout` is raised only when the shutdown flag was never
observed: if a run ends in the timeout outcome, the flag was unset at entry
and was not set during any of the waits that produced the consumed
candidates. -/
theorem getGo_timeoutExit_no_shutdown (pred : Nat → Bool)
    (mt tl : Option Nat) :
    ∀ (sched : List SchedItem) (tryT now : Nat) (sd : Bool),
      (getGo pred mt tl sched tryT now sd).result = .timeoutExit →
      sd = false ∧
        ∀ it ∈ sched.take (getGo pred mt tl sched tryT now sd).consumed,
          it.sduring = false := by
  intro sched
  induction sched with
  | nil =>
    intro tryT now sd h
    cases sd
    · exact ⟨rfl, by simp⟩
    · rw [getGo_shutdown] at h
      cases h
  | cons a rest ih =>
    intro tryT now sd h
    cases sd
    case true =>
      rw [getGo_shutdown] at h
      cases h
    case false =>
      refine ⟨rfl, ?_⟩
      by_cases h1 : tryExceeded mt tryT = true
      · rw [getGo_cons_early pred mt tl a rest tryT now (Or.inl h1)]
        simp
      · have h1f : tryExceeded mt tryT = false := by
          revert h1; cases tryExceeded mt tryT <;> simp
        by_cases h2 : timeExceeded tl now = true
        · rw [getGo_cons_early pred mt tl a rest tryT now (Or.inr (Or.inl h2))]
          simp
        · have h2f : timeExceeded tl now = false := by
            revert h2; cases timeExceeded tl now <;> simp
          by_cases h3 : timeExceeded tl a.time = true
          · rw [getGo_cons_early pred mt tl a rest tryT now (Or.inr (Or.inr h3))]
            simp
          · have h3f : timeExceeded tl a.time = false := by
              revert h3; cases timeExceeded tl a.time <;> simp
            by_cases h4 : (!a.handled && pred a.payload) = true
            · rw [getGo_cons_found pred mt tl a rest tryT now h1f h2f h3f h4] at h
              cases h
            · have h4f : (!a.handled && pred a.payload) = false := by
                revert h4; cases (!a.handled && pred a.payload) <;> simp
              rw [getGo_cons pred mt tl a rest tryT now h1f h2f h3f h4f] at h ⊢
              have hr : (getGo pred mt tl rest (tryT + 1) a.time a.sduring).result
                  = .timeoutExit := h
              have := ih (tryT + 1) a.time a.sduring hr
              intro it hit
              rw [List.take_succ_cons] at hit
              rcases List.mem_cons.mp hit with rfl | hit'
              · exact this.1
              · exact this.2 it hit'

/-- With a finite try-count bound, no shutdown, no deadline, and no
candidate accepted by the predicate, a schedule longer than the bound makes
the run raise `GetEventTimeout`. -/
theorem getGo_no_match_timeout (pred : Nat → Bool) (m : Nat) :
    ∀ (sched : List SchedItem) (tryT now : Nat),
      (∀ it ∈ sched,
        it.sduring = false ∧ (it.handled = false → pred it.payload = false)) →
      m < sched.length + tryT →
      (getGo pred (some m) none sched tryT now false).result = .timeoutExit := by
  intro sched
  induction sched with
  | nil =>
    intro tryT now _ hlen
    have h1 : tryExceeded (some m) tryT = true := by
      simp only [tryExceeded, decide_eq_true_eq]
      simpa using hlen
    simp [getGo, h1]
  | cons a rest ih =>
    intro tryT now h hlen
    by_cases h1 : tryExceeded (some m) tryT = true
    · rw [getGo_cons_early pred (some m) none a rest tryT now (Or.inl h1)]
    · have h1f : tryExceeded (some m) tryT = false := by
        revert h1; cases tryExceeded (some m) tryT <;> simp
      have ha := h a (List.mem_cons_self _ _)
      have h4 : (!a.handled && pred a.payload) = false := by
        cases hh : a.handled
        · simp [hh, ha.2 hh]
        · simp [hh]
      rw [getGo_cons pred (some m) none a rest tryT now h1f rfl rfl h4]
      show (getGo pred (some m) none rest (tryT + 1) a.time a.sduring).result
        = .timeoutExit
      rw [ha.1]
      exact ih (tryT + 1) a.time
        (fun it hit => h it (List.mem_cons_of_mem _ hit))
        (by simp only [List.length_cons] at hlen; omega)

/-- Whenever the loop-top deadline check fires with the shutdown flag unset,
the run raises `GetEventTimeout` (also when the try-count bound fires
first: both breaks land on the same raise). -/
theorem getGo_deadline (pred : Nat → Bool) (mt : Option Nat) (tl : Nat)
    (sched : List SchedItem) (tryT now : Nat) (hlt : tl < now) :
    (getGo pred mt (some tl) sched tryT now false).result = .timeoutExit := by
  have h2 : timeExceeded (some tl) now = true := by
    simp [timeExceeded, hlt]
  cases sched with
  | nil =>
    by_cases h1 : tryExceeded mt tryT = true <;> simp [getGo, h1, h2]
  | cons a rest =>
    rw [getGo_cons_early pred mt (some tl) a rest tryT now (Or.inr (Or.inl h2))]

/-- The predicate-evaluation budget left at try counter `tryT` under bound
`m` is `m + 1 - tryT`: the bound check is a strict comparison performed
before each wait, and the counter is incremented after each non-returning
candidate. -/
theorem getGo_evals_le (pred : Nat → Bool) (m : Nat) (tl : Option Nat) :
    ∀ (sched : List SchedItem) (tryT now : Nat) (sd : Bool),
      (getGo pred (some m) tl sched tryT now sd).evals ≤ m + 1 - tryT := by
  intro sched
  induction sched with
  | nil =>
    intro tryT now sd
    simp [(getGo_nil_counts pred (some m) tl tryT now sd).2]
  | cons a rest ih =>
    intro tryT now sd
    cases sd
    case true =>
      rw [getGo_shutdown]
      simp
    case false =>
      by_cases h1 : tryExceeded (some m) tryT = true
      · rw [getGo_cons_early pred (some m) tl a rest tryT now (Or.inl h1)]
        simp
      · have h1f : tryExceeded (some m) tryT = false := by
          revert h1; cases tryExceeded (some m) tryT <;> simp
        have htm : tryT ≤ m := by
          simp only [tryExceeded, decide_eq_false_iff_not, not_lt] at h1f
          exact h1f
        by_cases h2 : timeExceeded tl now = true
        · rw [getGo_cons_early pred (some m) tl a rest tryT now (Or.inr (Or.inl h2))]
          simp
        · have h2f : timeExceeded tl now = false := by
            revert h2; cases timeExceeded tl now <;> simp
          by_cases h3 : timeExceeded tl a.time = true
          · rw [getGo_cons_early pred (some m) tl a rest tryT now (Or.inr (Or.inr h3))]
            simp
          · have h3f : timeExceeded tl a.time = false := by
              revert h3; cases timeExceeded tl a.time <;> simp
            by_cases h4 : (!a.handled && pred a.payload) = true
            · rw [getGo_cons_found pred (some m) tl a rest tryT now h1f h2f h3f h4]
              simp only
              omega
            · have h4f : (!a.handled && pred a.payload) = false := by
                revert h4; cases (!a.handled && pred a.payload) <;> simp
              rw [getGo_cons pred (some m) tl a rest tryT now h1f h2f h3f h4f]
              simp only
              have := ih (tryT + 1) a.time a.sduring
              cases a.handled <;> simp <;> omega

/-- Predicate of the C3 scenario: matches payload 1 only. -/
def c3Pred : Nat → Bool := fun n => decide (n = 1)

/-- An already-claimed candidate for the C3 scenario. -/
def c3Claimed : SchedItem := ⟨0, true, 0, false⟩

/-- An unclaimed matching candidate for the C3 scenario. -/
def c3Match : SchedItem := ⟨1, false, 0, false⟩

/-- C3 (counterexample): with `max_try_times = 0`, a first candidate whose
claimed flag is already true is skipped without a predicate evaluation but
still consumes the single try (`try_times += 1` runs for every received
candidate), so a following matching candidate is never examined and
`GetEventTimeout` is raised; without the claimed candidate the same call
returns the matching event.  The claim says a claimed candidate is not
counted against the try-count bound. -/
theorem c3_counterexample :
    getRun c3Pred (some 0) none [c3Claimed, c3Match] = ⟨.timeoutExit, 1, 0⟩ ∧
      getRun c3Pred (some 0) none [c3Match] = ⟨.found 1, 1, 1⟩ :=
  ⟨by decide, by decide⟩

/-- C3 (amended): upon receiving a candidate event, `get` skips it without
evaluating the predicate when its claimed flag is already true, but still
increments the try-count; when the predicate is evaluated on an unclaimed
candidate and returns false the try-count is incremented as well; when it
returns true on an unclaimed candidate, the event is claimed and returned.
So the try-count counts every consumed candidate that is not returned,
claimed ones included. -/
theorem c3_amended (pred : Nat → Bool) (mt : Option Nat) (it : SchedItem)
    (rest : List SchedItem) :
    (it.handled = true →
      getRun pred mt none (it :: rest) =
        ⟨(getGo pred mt none rest 1 it.time it.sduring).result,
         (getGo pred mt none rest 1 it.time it.sduring).consumed + 1,
         (getGo pred mt none rest 1 it.time it.sduring).evals⟩) ∧
    (it.handled = false → pred it.payload = true →
      getRun pred mt none (it :: rest) = ⟨.found it.payload, 1, 1⟩) ∧
    (it.handled = false → pred it.payload = false →
      getRun pred mt none (it :: rest) =
        ⟨(getGo pred mt none rest 1 it.time it.sduring).result,
         (getGo pred mt none rest 1 it.time it.sduring).consumed + 1,
         (getGo pred mt none rest 1 it.time it.sduring).evals + 1⟩) := by
  refine ⟨?_, ?_, ?_⟩
  · intro hh
    rw [getRun, getGo_cons pred mt none it rest 0 0 (tryExceeded_zero mt)
      rfl rfl (by simp [hh])]
    simp [hh]
  · intro hh hp
    rw [getRun, getGo_cons_found pred mt none it rest 0 0 (tryExceeded_zero mt)
      rfl rfl (by simp [hh, hp])]
  · intro hh hp
    rw [getRun, getGo_cons pred mt none it rest 0 0 (tryExceeded_zero mt)
      rfl rfl (by simp [hh, hp])]
    simp [hh]

/-- C3 witness: the amended statement at concrete candidates. -/
theorem c3_witness :
    getRun c3Pred (some 4) none [c3Claimed] =
      ⟨(getGo c3Pred (some 4) none [] 1 c3Claimed.time c3Claimed.sduring).result,
       (getGo c3Pred (some 4) none [] 1 c3Claimed.time c3Claimed.sduring).consumed + 1,
       (getGo c3Pred (some 4) none [] 1 c3Claimed.time c3Claimed.sduring).evals⟩ ∧
      getRun c3Pred (some 4) none [c3Match] = ⟨.found c3Match.payload, 1, 1⟩ :=
  ⟨(c3_amended c3Pred (some 4) c3Claimed []).1 rfl,
   (c3_amended c3Pred (some 4) c3Match []).2.1 rfl rfl⟩

/-- C4: `get` raises `GetEventTimeout` when the try-count bound or the
deadline is exceeded before a match, unless the shutdown flag was set
first, in which case it returns without error — shutdown takes priority
over timeout.  Conjuncts: (1) a timeout outcome implies the shutdown flag
was never observed during the consumed waits; (2) an observed shutdown flag
ends the call at once with the shutdown outcome, whatever the bounds; (3) a
matchless, shutdown-free schedule longer than the try-count bound yields
the timeout outcome; (4) a loop-top deadline overrun with shutdown unset
yields the timeout outcome; (5) with `max_try_times = 0`, a non-matching
candidate during whose wait shutdown was set makes `get` return without
error even though the try bound is also exhausted. -/
theorem c4_shutdown_over_timeout :
    (∀ (pred : Nat → Bool) (mt tl : Option Nat) (sched : List SchedItem),
      (getRun pred mt tl sched).result = .timeoutExit →
      ∀ it ∈ sched.take (getRun pred mt tl sched).consumed,
        it.sduring = false) ∧
    (∀ (pred : Nat → Bool) (mt tl : Option Nat) (sched : List SchedItem)
      (tryT now : Nat),
      getGo pred mt tl sched tryT now true = ⟨.shutdownExit, 0, 0⟩) ∧
    (∀ (pred : Nat → Bool) (m : Nat) (sched : List SchedItem),
      (∀ it ∈ sched,
        it.sduring = false ∧ (it.handled = false → pred it.payload = false)) →
      m < sched.length →
      (getRun pred (some m) none sched).result = .timeoutExit) ∧
    (∀ (pred : Nat → Bool) (mt : Option Nat) (tl : Nat)
      (sched : List SchedItem) (tryT now : Nat), tl < now →
      (getGo pred mt (some tl) sched tryT now false).result = .timeoutExit) ∧
    (∀ (pred : Nat → Bool) (c : SchedItem) (rest : List SchedItem),
      c.sduring = true → (!c.handled && pred c.payload) = false →
      (getRun pred (some 0) none (c :: rest)).result = .shutdownExit) := by
  refine ⟨?_, ?_, ?_, ?_, ?_⟩
  · intro pred mt tl sched h
    exact (getGo_timeoutExit_no_shutdown pred mt tl sched 0 0 false h).2
  · intro pred mt tl sched tryT now
    exact getGo_shutdown pred mt tl sched tryT now
  · intro pred m sched h hlen
    exact getGo_no_match_timeout pred m sched 0 0 h (by omega)
  · intro pred mt tl sched tryT now hlt
    exact getGo_deadline pred mt tl sched tryT now hlt
  · intro pred c rest hsd h4
    rw [getRun, getGo_cons pred (some 0) none c rest 0 0
      (tryExceeded_zero (some 0)) rfl rfl h4]
    show (getGo pred (some 0) none rest 1 c.time c.sduring).result
      = .shutdownExit
    rw [hsd, getGo_shutdown]

/-- C4 witness: the spec's own scenario — `maxTries = 0`, a non-matching
"pong" candidate arrives, shutdown is set before any "ping": `get` returns
without error, not with `GetEventTimeout`. -/
theorem c4_witness :
    (getRun (fun n => decide (n = 100)) (some 0) none
        [⟨5, false, 1, true⟩]).result = GetResult.shutdownExit :=
  c4_shutdown_over_timeout.2.2.2.2 (fun n => decide (n = 100))
    ⟨5, false, 1, true⟩ [] rfl (by decide)

/-- C10: with `max_try_times = n`, `get` evaluates its predicate on at most
`n + 1` candidates (the bound check is `try_times > max_try_times` on a
counter incremented after each non-returning candidate); in particular
`max_try_times = 0` does not fail immediately: the first candidate is still
consumed and, when unclaimed, the predicate is evaluated on it — and a
matching first candidate is returned. -/
theorem c10_try_bound :
    (∀ (pred : Nat → Bool) (n : Nat) (tl : Option Nat)
      (sched : List SchedItem),
      (getRun pred (some n) tl sched).evals ≤ n + 1) ∧
    (∀ (pred : Nat → Bool) (c : SchedItem) (rest : List SchedItem),
      c.handled = false →
      1 ≤ (getRun pred (some 0) none (c :: rest)).evals ∧
        (getRun pred (some 0) none (c :: rest)).consumed = 1) ∧
    (∀ (pred : Nat → Bool) (c : SchedItem) (rest : List SchedItem),
      c.handled = false → pred c.payload = true →
      (getRun pred (some 0) none (c :: rest)).result = .found c.payload) := by
  refine ⟨?_, ?_, ?_⟩
  · intro pred n tl sched
    have := getGo_evals_le pred n tl sched 0 0 false
    simpa using this
  · intro pred c rest hh
    by_cases hp : pred c.payload = true
    · rw [getRun, getGo_cons_found pred (some 0) none c rest 0 0
        (tryExceeded_zero (some 0)) rfl rfl (by simp [hh, hp])]
      exact ⟨le_refl 1, rfl⟩
    · have hpf : pred c.payload = false := by
        revert hp; cases pred c.payload <;> simp
      rw [getRun, getGo_cons pred (some 0) none c rest 0 0
        (tryExceeded_zero (some 0)) rfl rfl (by simp [hh, hpf])]
      have h1 : tryExceeded (some 0) 1 = true := by simp [tryExceeded]
      constructor
      · show 1 ≤ (getGo pred (some 0) none rest 1 c.time c.sduring).evals
          + (if c.handled then 0 else 1)
        simp [hh]
      · show (getGo pred (some 0) none rest 1 c.time c.sduring).consumed + 1 = 1
        cases c.sduring
        · cases rest with
          | nil => rfl
          | cons b rs =>
            rw [getGo_cons_early pred (some 0) none b rs 1 c.time (Or.inl h1)]
        · rw [getGo_shutdown]
  · intro pred c rest hh hp
    rw [getRun, getGo_cons_found pred (some 0) none c rest 0 0
      (tryExceeded_zero (some 0)) rfl rfl (by simp [hh, hp])]

/-- C10 witness: `max_try_times = 0` with a single unclaimed non-matching
candidate still evaluates the predicate once, and with a matching first
candidate returns it. -/
theorem c10_witness :
    (1 ≤ (getRun c3Pred (some 0) none [⟨2, false, 0, false⟩]).evals ∧
        (getRun c3Pred (some 0) none [⟨2, false, 0, false⟩]).consumed = 1) ∧
      (getRun c3Pred (some 0) none [⟨1, false, 0, false⟩]).result =
        .found (1 : Nat) :=
  ⟨c10_try_bound.2.1 c3Pred ⟨2, false, 0, false⟩ [] rfl,
   c10_try_bound.2.2 c3Pred ⟨1, false, 0, false⟩ [] rfl rfl⟩

/-- Inserting at a priority appends the descriptor after the bucket's
existing entries. -/
theorem bucket_addToBucket (t : Table) (p : Int) (c : PluginClass) :
    bucket (addToBucket t p c) p = bucket t p ++ [c] := by
  induction t with
  | nil => simp [addToBucket, bucket]
  | cons kv rest ih =>
    obtain ⟨q, hs⟩ := kv
    by_cases hqp : q = p
    · subst hqp
      simp [addToBucket, bucket]
    · simp [addToBucket, bucket, hqp, ih]

/-- Inserting at an absent priority creates the bucket as a new key at the
end of the dict (insertion order). -/
theorem addToBucket_not_mem (t : Table) (p : Int) (c : PluginClass)
    (hp : p ∉ keys t) : addToBucket t p c = t ++ [(p, [c])] := by
  induction t with
  | nil => simp [addToBucket]
  | cons kv rest ih =>
    obtain ⟨q, hs⟩ := kv
    have hqp : ¬q = p := by
      intro h
      exact hp (by simp [keys, h])
    have hp' : p ∉ keys rest := fun h => hp (List.mem_cons_of_mem _ h)
    simp [addToBucket, hqp, ih hp']

/-- C9: `Bot._load_plugin_from_class` validates the declared priority.
When the priority is a non-negative integer the descriptor is inserted into
the bucket for that priority — appended after existing entries, the bucket
created at the end of the dict if absent; a negative or non-integer
priority makes registration fail with `LoadModuleError`, producing no
insertion (the error is raised before any mutation, so the table is
unchanged). -/
theorem c9_register (t : Table) (c : PluginClass) :
    (∀ p : Int, c.priority = some p → 0 ≤ p →
      loadPluginFromClass t c = .ok (addToBucket t p c) ∧
      bucket (addToBucket t p c) p = bucket t p ++ [c] ∧
      (p ∉ keys t → addToBucket t p c = t ++ [(p, [c])])) ∧
    (∀ p : Int, c.priority = some p → p < 0 →
      loadPluginFromClass t c = .error ()) ∧
    (c.priority = none → loadPluginFromClass t c = .error ()) := by
  refine ⟨?_, ?_, ?_⟩
  · intro p hp hpos
    exact ⟨by simp [loadPluginFromClass, hp, hpos],
      bucket_addToBucket t p c, addToBucket_not_mem t p c⟩
  · intro p hp hneg
    simp [loadPluginFromClass, hp, not_le.mpr hneg]
  · intro hp
    simp [loadPluginFromClass, hp]

/-- A valid plugin class for the C9 witness. -/
def c9GoodPlugin : PluginClass := ⟨50, some 2, false, .ok true, .ok⟩

/-- A plugin class with a negative priority for the C9 witness. -/
def c9BadPlugin : PluginClass := ⟨51, some (-1), false, .ok true, .ok⟩

/-- C9 witness: the statement at concrete plugin classes. -/
theorem c9_witness :
    loadPluginFromClass [] c9GoodPlugin = .ok (addToBucket [] 2 c9GoodPlugin) ∧
      bucket (addToBucket [] 2 c9GoodPlugin) 2 =
        bucket ([] : Table) 2 ++ [c9GoodPlugin] ∧
      addToBucket ([] : Table) 2 c9GoodPlugin = [] ++ [(2, [c9GoodPlugin])] ∧
      loadPluginFromClass [] c9BadPlugin = .error () :=
  ⟨((c9_register [] c9GoodPlugin).1 2 rfl (by decide)).1,
   ((c9_register [] c9GoodPlugin).1 2 rfl (by decide)).2.1,
   ((c9_register [] c9GoodPlugin).1 2 rfl (by decide)).2.2 (by decide),
   (c9_register [] c9BadPlugin).2.1 (-1) rfl (by decide)⟩

/-- Plugin for the C7 scenario. -/
def c7Plugin : PluginClass := ⟨60, some 0, false, .ok true, .ok⟩

/-- C7 (counterexample): registering one plugin at priority 0 and then
removing it through the hot-reload deletion path (`plugins.pop(i)`) leaves
the dict with key 0 mapping to an empty list: the empty bucket is retained
and tier iteration visits it, contrary to the claim. -/
theorem c7_counterexample :
    applyOps [] [.register c7Plugin, .unregister 60] = [(0, [])] ∧
      (0 : Int) ∈ keys (applyOps [] [.register c7Plugin, .unregister 60]) ∧
      bucket (applyOps [] [.register c7Plugin, .unregister 60]) 0 = [] :=
  ⟨by decide, by decide, by decide⟩

/-- C7 (amended): registration never creates or retains an empty bucket,
but plugin removal only pops the descriptor from its bucket and keeps the
key set unchanged, so removing the last descriptor of a bucket retains the
now-empty bucket and tier iteration visits it; the visit is harmless in
that an empty tier instantiates and rule-checks no handler. -/
theorem c7_amended :
    (∀ (t : Table) (p : Int) (c : PluginClass),
      (∀ kv ∈ t, kv.2 ≠ ([] : List PluginClass)) →
      ∀ kv ∈ addToBucket t p c, kv.2 ≠ ([] : List PluginClass)) ∧
    (∀ (t : Table) (f : Nat), keys (hotReloadDelete t f) = keys t) ∧
    (∀ (t : Table) (q : Int) (j : Nat), bucket t q = [] →
      (q, j) ∉ dispatchTrace t) := by
  refine ⟨?_, ?_, ?_⟩
  · intro t p c hwf
    induction t with
    | nil =>
      intro kv hkv
      simp only [addToBucket, List.mem_singleton] at hkv
      subst hkv
      simp
    | cons hd rest ih =>
      obtain ⟨q, hs⟩ := hd
      intro kv hkv
      by_cases hqp : q = p
      · subst hqp
        simp only [addToBucket, if_pos rfl] at hkv
        rcases List.mem_cons.mp hkv with rfl | hkv'
        · simp
        · exact hwf kv (List.mem_cons_of_mem _ hkv')
      · simp only [addToBucket, if_neg hqp] at hkv
        rcases List.mem_cons.mp hkv with rfl | hkv'
        · exact hwf (q, hs) (List.mem_cons_self _ _)
        · exact ih (fun kv2 h2 => hwf kv2 (List.mem_cons_of_mem _ h2)) kv hkv'
  · intro t f
    simp [keys, hotReloadDelete]
  · intro t q j hq hmem
    have := (mem_goTiers_len hmem).2
    rw [hq] at this
    simp at this

/-- C7 witness: the amended statement at concrete tables. -/
theorem c7_witness :
    (∀ kv ∈ addToBucket [((1 : Int), [c9GoodPlugin])] 0 c7Plugin,
        kv.2 ≠ ([] : List PluginClass)) ∧
      keys (hotReloadDelete [((0 : Int), [c7Plugin])] 60) =
        keys [((0 : Int), [c7Plugin])] ∧
      ((5 : Int), 0) ∉ dispatchTrace [((5 : Int), ([] : List PluginClass))] :=
  ⟨c7_amended.1 [((1 : Int), [c9GoodPlugin])] 0 c7Plugin (by decide),
   c7_amended.2.1 [((0 : Int), [c7Plugin])] 60,
   c7_amended.2.2 [((5 : Int), ([] : List PluginClass))] 5 0 (by decide)⟩

end Alice
